import Mathlib

/-!
Shallow embedding of the simulation core of `src/flappybird.py`.

Positions, timers and speeds are Python floats in the source; they are
modelled here over an arbitrary linear ordered field `K` (instantiated at
`ℚ` for concrete evaluations and at `ℝ` where the real cosine is needed).
`math.cos (q * math.pi)` is modelled by an abstract parameter
`cosf : K → K` standing for the map `q ↦ cos (π * q)`; every theorem that
touches the climb branch either holds for all `cosf` or instantiates
`cosf` at `fun q => Real.cos (q * Real.pi)`.
-/

/-- Frame rate constant of the loop: `FPS = 60`. -/
def FPS : ℕ := 60

/-- Leftward pipe scroll speed: `ANIMATION_SPEED = 0.18` pixels per millisecond. -/
def ANIMATION_SPEED {K : Type} [LinearOrderedField K] : K := 9 / 50

/-- Window width: `WIN_WIDTH = 284 * 2` pixels. -/
def WIN_WIDTH : ℕ := 284 * 2

/-- Window height: `WIN_HEIGHT = 512` pixels. -/
def WIN_HEIGHT : ℕ := 512

/-- Conversion `frames_to_msec(frames, fps=FPS) = 1000.0 * frames / fps`. -/
def frames_to_msec {K : Type} [LinearOrderedField K] (frames : K) : K :=
  1000 * frames / (FPS : K)

/-- Conversion `msec_to_frames(milliseconds, fps=FPS) = fps * milliseconds / 1000.0`. -/
def msec_to_frames {K : Type} [LinearOrderedField K] (milliseconds : K) : K :=
  (FPS : K) * milliseconds / 1000

/-- The Bird: x is never mutated by `Bird.update`; y and `msec_to_climb`
hold the vertical motion state. -/
structure Bird (K : Type) where
  x : K
  y : K
  msec_to_climb : K
  deriving DecidableEq

/-- Width of the bird image: `Bird.WIDTH = 32`. -/
def Bird.WIDTH : ℕ := 32

/-- Height of the bird image: `Bird.HEIGHT = 32`. -/
def Bird.HEIGHT : ℕ := 32

/-- Sink speed: `Bird.SINK_SPEED = 0.18` pixels per millisecond. -/
def Bird.SINK_SPEED {K : Type} [LinearOrderedField K] : K := 9 / 50

/-- Climb speed: `Bird.CLIMB_SPEED = 0.3` pixels per millisecond. -/
def Bird.CLIMB_SPEED {K : Type} [LinearOrderedField K] : K := 3 / 10

/-- Full climb duration: `Bird.CLIMB_DURATION = 333.3` milliseconds. -/
def Bird.CLIMB_DURATION {K : Type} [LinearOrderedField K] : K := 3333 / 10

/-- Physics step `Bird.update(delta_frames=1)`: if `msec_to_climb > 0`, climb along the
cosine easing profile and decrement the timer by the elapsed milliseconds;
else sink at `SINK_SPEED`.  `cosf q` stands for `math.cos(q * math.pi)`. -/
def Bird.update {K : Type} [LinearOrderedField K] (cosf : K → K) (delta_frames : K)
    (b : Bird K) : Bird K :=
  if 0 < b.msec_to_climb then
    let frac_climb_done := 1 - b.msec_to_climb / Bird.CLIMB_DURATION
    { b with
      y := b.y - Bird.CLIMB_SPEED * frames_to_msec delta_frames * (1 - cosf frac_climb_done)
      msec_to_climb := b.msec_to_climb - frames_to_msec delta_frames }
  else
    { b with y := b.y + Bird.SINK_SPEED * frames_to_msec delta_frames }

/-- The spec-level `advance(elapsedMs)` view of `Bird.update`: the source
measures time in frames with `elapsedMs = frames_to_msec(delta_frames)`,
so advancing by `elapsedMs` is `update` at `msec_to_frames elapsedMs`. -/
def Bird.advance {K : Type} [LinearOrderedField K] (cosf : K → K) (elapsedMs : K)
    (b : Bird K) : Bird K :=
  Bird.update cosf (msec_to_frames elapsedMs) b

/-- A pipe pair: horizontal position, piece counts (after the end-cap
increments of `__init__`), and the scored flag. -/
structure PipePair (K : Type) where
  x : K
  top_pieces : ℕ
  bottom_pieces : ℕ
  score_counted : Bool
  deriving DecidableEq

/-- Pipe width: `PipePair.WIDTH = 80`. -/
def PipePair.WIDTH : ℕ := 80

/-- Pipe piece height: `PipePair.PIECE_HEIGHT = 32`. -/
def PipePair.PIECE_HEIGHT : ℕ := 32

/-- Spawn interval: `PipePair.ADD_INTERVAL = 3000` milliseconds. -/
def PipePair.ADD_INTERVAL : ℕ := 3000

/-- Body budget `total_pipe_body_pieces = int((WIN_HEIGHT - 3*Bird.HEIGHT - 3*PIECE_HEIGHT)
/ PIECE_HEIGHT)`; all quantities positive, so Python truncation is floor. -/
def total_pipe_body_pieces : ℕ :=
  (WIN_HEIGHT - 3 * Bird.HEIGHT - 3 * PipePair.PIECE_HEIGHT) / PipePair.PIECE_HEIGHT

/-- Constructor `PipePair.__init__`: `x = WIN_WIDTH - 1`, `score_counted = False`,
`bottom_pieces = randint(1, total_pipe_body_pieces)` (the draw is the
argument `bottomDraw`), `top_pieces = total - bottom_pieces`; after the
end caps are blitted both counts are incremented by one. -/
def PipePair.init {K : Type} [LinearOrderedField K] (bottomDraw : ℕ) : PipePair K :=
  let total := total_pipe_body_pieces
  let bottom0 := bottomDraw
  let top0 := total - bottom0
  { x := (WIN_WIDTH : K) - 1
    score_counted := false
    top_pieces := top0 + 1
    bottom_pieces := bottom0 + 1 }

/-- Derived height `top_height_px = top_pieces * PIECE_HEIGHT`. -/
def PipePair.top_height_px {K : Type} (p : PipePair K) : ℕ :=
  p.top_pieces * PipePair.PIECE_HEIGHT

/-- Derived height `bottom_height_px = bottom_pieces * PIECE_HEIGHT`. -/
def PipePair.bottom_height_px {K : Type} (p : PipePair K) : ℕ :=
  p.bottom_pieces * PipePair.PIECE_HEIGHT

/-- Visibility test `visible = -PipePair.WIDTH < x < WIN_WIDTH`. -/
def PipePair.visible {K : Type} [LinearOrderedField K] (p : PipePair K) : Bool :=
  decide (-(PipePair.WIDTH : K) < p.x) && decide (p.x < (WIN_WIDTH : K))

/-- Scroll step `PipePair.update(delta_frames=1)`: `x -= ANIMATION_SPEED *
frames_to_msec(delta_frames)`. -/
def PipePair.update {K : Type} [LinearOrderedField K] (p : PipePair K)
    (delta_frames : K) : PipePair K :=
  { p with x := p.x - ANIMATION_SPEED * frames_to_msec delta_frames }

/-- The three kinds of input events the loop reacts to: `quit` covers both
the window-close event and the escape key. -/
inductive Event where
  | quit
  | togglePause
  | climb
  deriving DecidableEq

/-- The event-drain loop of `main`: a quit event sets `done` and breaks out
of the drain (remaining events are not processed); a pause event flips
`paused`; a climb event resets the bird's climb timer to `CLIMB_DURATION`
regardless of the pause state. -/
def processEvents {K : Type} [LinearOrderedField K] :
    List Event → Bird K → Bool → Bool → Bird K × Bool × Bool
  | [], bird, done, paused => (bird, done, paused)
  | Event.quit :: _, bird, _, paused => (bird, true, paused)
  | Event.togglePause :: rest, bird, done, paused => processEvents rest bird done (!paused)
  | Event.climb :: rest, bird, done, paused =>
      processEvents rest { bird with msec_to_climb := Bird.CLIMB_DURATION } done paused

/-- The mutable loop state of `main`. -/
structure GameState (K : Type) where
  bird : Bird K
  pipes : List (PipePair K)
  frame_clock : ℕ
  score : ℕ
  done : Bool
  paused : Bool
  deriving DecidableEq

/-- Spawn interval in frames, `msec_to_frames(PipePair.ADD_INTERVAL)` at 60 FPS:
the loop spawns when `frame_clock % 180` is (the float) zero. -/
def ADD_INTERVAL_FRAMES : ℕ := 180

/-- Spawn step at the top of a loop iteration:
`if not (paused or frame_clock % msec_to_frames(ADD_INTERVAL)): pipes.append(...)`. -/
def spawnStep {K : Type} [LinearOrderedField K] (bottomDraw : ℕ) (s : GameState K) :
    List (PipePair K) :=
  if !s.paused && (s.frame_clock % ADD_INTERVAL_FRAMES == 0) then
    s.pipes ++ [PipePair.init bottomDraw]
  else
    s.pipes

/-- The collision / out-of-bounds test of the loop:
`any(p.collides_with(bird)) or 0 >= bird.y or bird.y >= WIN_HEIGHT - Bird.HEIGHT`.
The pixel-mask test `collides_with` is the abstract parameter `c`. -/
def hitCheck {K : Type} [LinearOrderedField K] (c : PipePair K → Bird K → Bool)
    (pipes : List (PipePair K)) (b : Bird K) : Bool :=
  pipes.any (fun p => c p b) || decide ((0 : K) ≥ b.y) ||
    decide (b.y ≥ (WIN_HEIGHT : K) - (Bird.HEIGHT : K))

/-- Pruning loop `while pipes and not pipes[0].visible: pipes.popleft()`. -/
def pruneExpired {K : Type} [LinearOrderedField K] (pipes : List (PipePair K)) :
    List (PipePair K) :=
  pipes.dropWhile (fun p => ! p.visible)

/-- The per-pipe effect of one scoring pass:
`if p.x + PipePair.WIDTH < bird.x and not p.score_counted: ... score_counted = True`. -/
def markScore {K : Type} [LinearOrderedField K] (birdX : K) (p : PipePair K) : PipePair K :=
  if p.x + (PipePair.WIDTH : K) < birdX ∧ p.score_counted = false then
    { p with score_counted := true }
  else
    p

/-- Scoring pass of the loop over the whole stream, threading the score:
for each pipe whose right edge has passed `birdX` and whose flag is unset,
add one to the score and set the flag. -/
def updateScoring {K : Type} [LinearOrderedField K] (birdX : K) :
    List (PipePair K) → ℕ → List (PipePair K) × ℕ
  | [], score => ([], score)
  | p :: rest, score =>
    if p.x + (PipePair.WIDTH : K) < birdX ∧ p.score_counted = false then
      let r := updateScoring birdX rest (score + 1)
      ({ p with score_counted := true } :: r.1, r.2)
    else
      let r := updateScoring birdX rest score
      (p :: r.1, r.2)

/-- One iteration of the body of `while not done`, in source order:
spawn, drain events, `if paused: continue`, collision check (on the
positions as they stand, before this tick's movement), prune, move pipes,
move bird, scoring, frame counter increment.  Rendering calls are omitted
(they only write to the display collaborator). -/
def tick {K : Type} [LinearOrderedField K] (cosf : K → K)
    (c : PipePair K → Bird K → Bool) (bottomDraw : ℕ) (events : List Event)
    (s : GameState K) : GameState K :=
  let pipes1 := spawnStep bottomDraw s
  let eo := processEvents events s.bird s.done s.paused
  let bird1 := eo.1
  let done1 := eo.2.1
  let paused1 := eo.2.2
  if paused1 then
    { s with pipes := pipes1, bird := bird1, done := done1, paused := paused1 }
  else
    let done2 := done1 || hitCheck c pipes1 bird1
    let pipes3 := (pruneExpired pipes1).map (fun p => PipePair.update p 1)
    let bird2 := Bird.update cosf 1 bird1
    let r := updateScoring bird2.x pipes3 s.score
    { bird := bird2
      pipes := r.1
      frame_clock := s.frame_clock + 1
      score := r.2
      done := done2
      paused := paused1 }

/-- Loop driver for `while not done`: each element of the schedule supplies one
tick's random draw and input events; iteration stops as soon as `done`
holds at the top of the loop. -/
def run {K : Type} [LinearOrderedField K] (cosf : K → K)
    (c : PipePair K → Bird K → Bool) :
    List (ℕ × List Event) → GameState K → GameState K
  | [], s => s
  | (d, evs) :: rest, s =>
    if s.done then s else run cosf c rest (tick cosf c d evs s)

/-- The state `main` builds before entering the loop:
`bird = Bird(50, int(WIN_HEIGHT/2 - Bird.HEIGHT/2), 2, ...)`, empty pipe
deque, `frame_clock = 0`, `score = 0`, `done = paused = False`. -/
def initialState {K : Type} [LinearOrderedField K] : GameState K :=
  { bird := { x := 50, y := 240, msec_to_climb := 2 }
    pipes := []
    frame_clock := 0
    score := 0
    done := false
    paused := false }

/-- A cosine stand-in whose values are irrelevant (used only where the sink
branch is exercised, or where a theorem holds for every `cosf`). -/
def cos0 : ℚ → ℚ := fun _ => 0

/-- A mask-collision oracle that never fires (empty overlap). -/
def noCollide : PipePair ℚ → Bird ℚ → Bool := fun _ _ => false

/-- A paused mid-game state: the bird still carries its initial climb
timer of 2 ms, one frame has elapsed. -/
def pausedState : GameState ℚ :=
  { bird := { x := 50, y := 240, msec_to_climb := 2 }
    pipes := []
    frame_clock := 1
    score := 0
    done := false
    paused := true }

/-- A running state one tick before a quit event arrives: the bird is
sinking at y = 300 and one pipe is on screen at x = 100. -/
def preOverState : GameState ℚ :=
  { bird := { x := 50, y := 300, msec_to_climb := 0 }
    pipes := [{ x := 100, top_pieces := 6, bottom_pieces := 6, score_counted := false }]
    frame_clock := 1
    score := 0
    done := false
    paused := false }

/-- A running state with the sinking bird 2 px above the kill line
`WIN_HEIGHT - Bird.HEIGHT = 480`. -/
def nearFloorState : GameState ℚ :=
  { bird := { x := 50, y := 478, msec_to_climb := 0 }
    pipes := []
    frame_clock := 1
    score := 0
    done := false
    paused := false }

/-- A state in which the loop has already entered Over (`done = true`). -/
def overState : GameState ℚ :=
  { bird := { x := 50, y := 303, msec_to_climb := 0 }
    pipes := []
    frame_clock := 2
    score := 0
    done := true
    paused := false }

/-- A visible pipe at x = 100 (used in stream counterexamples). -/
def cexPipeA : PipePair ℚ := { x := 100, top_pieces := 6, bottom_pieces := 6, score_counted := false }

/-- An off-screen pipe at x = -200 (its whole extent is left of the window). -/
def cexPipeB : PipePair ℚ := { x := -200, top_pieces := 6, bottom_pieces := 6, score_counted := false }

/-- An off-screen pipe at x = -100 (head of an ascending-x stream). -/
def ascPipeA : PipePair ℚ := { x := -100, top_pieces := 6, bottom_pieces := 6, score_counted := false }

/-- A visible pipe at x = 5 (tail of an ascending-x stream). -/
def ascPipeB : PipePair ℚ := { x := 5, top_pieces := 6, bottom_pieces := 6, score_counted := false }

/-- A pipe that already carries a set scored flag. -/
def scoredPipe : PipePair ℚ := { x := 0, top_pieces := 6, bottom_pieces := 6, score_counted := true }

/-- A pipe that qualifies for scoring against bird x = 100: its right edge
0 + 80 is left of 100 and its flag is unset. -/
def unscoredPipe : PipePair ℚ := { x := 0, top_pieces := 6, bottom_pieces := 6, score_counted := false }

/-!  Helper lemmas (shared between claims). -/

/-- The spawn interval in frames really is `msec_to_frames ADD_INTERVAL`. -/
theorem add_interval_frames_eq :
    msec_to_frames ((PipePair.ADD_INTERVAL : ℚ)) = (ADD_INTERVAL_FRAMES : ℚ) := by
  norm_num [msec_to_frames, FPS, PipePair.ADD_INTERVAL, ADD_INTERVAL_FRAMES]

/-- Converting milliseconds to frames and back is the identity. -/
theorem frames_to_msec_msec_to_frames {K : Type} [LinearOrderedField K] (e : K) :
    frames_to_msec (msec_to_frames e) = e := by
  have h : (FPS : K) ≠ 0 := by norm_num [FPS]
  field_simp [frames_to_msec, msec_to_frames]

/-- Unfolding of the visibility test into its two strict comparisons. -/
theorem visible_eq_true_iff {K : Type} [LinearOrderedField K] (p : PipePair K) :
    p.visible = true ↔ (-(PipePair.WIDTH : K) < p.x ∧ p.x < (WIN_WIDTH : K)) := by
  simp [PipePair.visible]

/-- Draining a list of climb-only events leaves the bird position and both
flags unchanged (only the climb timer is written). -/
theorem processEvents_climb_only {K : Type} [LinearOrderedField K] :
    ∀ (evs : List Event), (∀ e ∈ evs, e = Event.climb) → ∀ (b : Bird K) (dn ps : Bool),
      ((processEvents evs b dn ps).1.x = b.x ∧ (processEvents evs b dn ps).1.y = b.y)
      ∧ (processEvents evs b dn ps).2.1 = dn ∧ (processEvents evs b dn ps).2.2 = ps := by
  intro evs
  induction evs with
  | nil => intro _ b dn ps; simp [processEvents]
  | cons e rest ih =>
    intro h b dn ps
    have he : e = Event.climb := h e (List.mem_cons_self _ _)
    subst he
    have hrest : ∀ x ∈ rest, x = Event.climb := fun x hx => h x (List.mem_cons_of_mem _ hx)
    simpa [processEvents] using ih hrest { b with msec_to_climb := Bird.CLIMB_DURATION } dn ps

/-- Closed form of a scoring pass: the stream is mapped through `markScore`
and the score grows by the number of qualifying pipes. -/
theorem updateScoring_spec {K : Type} [LinearOrderedField K] (bx : K) :
    ∀ (l : List (PipePair K)) (sc : ℕ),
      updateScoring bx l sc
        = (l.map (markScore bx),
           sc + l.countP fun p => decide (p.x + (PipePair.WIDTH : K) < bx ∧ p.score_counted = false)) := by
  intro l
  induction l with
  | nil => intro sc; simp [updateScoring]
  | cons p rest ih =>
    intro sc
    by_cases h : p.x + (PipePair.WIDTH : K) < bx ∧ p.score_counted = false
    · simp [updateScoring, h, markScore, ih, List.countP_cons]
      omega
    · simp [updateScoring, h, markScore, ih, List.countP_cons]

/-- Marking is idempotent on a single pipe. -/
theorem markScore_idem {K : Type} [LinearOrderedField K] (bx : K) (p : PipePair K) :
    markScore bx (markScore bx p) = markScore bx p := by
  by_cases h : p.x + (PipePair.WIDTH : K) < bx ∧ p.score_counted = false
  · simp [markScore, h]
  · simp [markScore, h]

/-- After a scoring pass a pipe never qualifies again. -/
theorem markScore_not_counted_again {K : Type} [LinearOrderedField K] (bx : K) (p : PipePair K) :
    decide ((markScore bx p).x + (PipePair.WIDTH : K) < bx
      ∧ (markScore bx p).score_counted = false) = false := by
  by_cases h : p.x + (PipePair.WIDTH : K) < bx ∧ p.score_counted = false
  · simp [markScore, h]
  · simp [markScore, h]

/-!  Claim theorems. -/

/-- Claim C4: `total_pipe_body_pieces` is the floor of
`(WIN_HEIGHT - 3*Bird.HEIGHT - 3*PIECE_HEIGHT) / PIECE_HEIGHT`, and for every
draw `bottomDraw` in `[1, total_pipe_body_pieces]` of `randint`, the generated
pipe pair satisfies `(top_pieces - 1) + (bottom_pieces - 1) =
total_pipe_body_pieces` (the pre-end-cap counts sum to the body budget). -/
theorem pipe_piece_conservation (b : ℕ) (h1 : 1 ≤ b) (h2 : b ≤ total_pipe_body_pieces) :
    total_pipe_body_pieces
        = (WIN_HEIGHT - 3 * Bird.HEIGHT - 3 * PipePair.PIECE_HEIGHT) / PipePair.PIECE_HEIGHT
    ∧ ((PipePair.init (K := ℚ) b).top_pieces - 1) + ((PipePair.init (K := ℚ) b).bottom_pieces - 1)
        = total_pipe_body_pieces := by
  constructor
  · rfl
  · simp only [PipePair.init]
    omega

/-- Claim C4 witness: the conservation law at the concrete draw 3. -/
theorem pipe_piece_conservation_witness :
    ((PipePair.init (K := ℚ) 3).top_pieces - 1) + ((PipePair.init (K := ℚ) 3).bottom_pieces - 1)
      = total_pipe_body_pieces :=
  (pipe_piece_conservation 3 (by norm_num)
    (by norm_num [total_pipe_body_pieces, WIN_HEIGHT, Bird.HEIGHT, PipePair.PIECE_HEIGHT])).2

/-- Claim C9: for every admissible random draw the vertical gap between the
bottom edge of the top pipe (`top_height_px`) and the top edge of the bottom
pipe (`WIN_HEIGHT - bottom_height_px`) equals the fixed constant
`WIN_HEIGHT - (total_pipe_body_pieces + 2) * PIECE_HEIGHT = 128` px. -/
theorem pipe_gap_constant (b : ℕ) (h1 : 1 ≤ b) (h2 : b ≤ total_pipe_body_pieces) :
    ((WIN_HEIGHT : ℤ) - ((PipePair.init (K := ℚ) b).bottom_height_px : ℤ))
        - ((PipePair.init (K := ℚ) b).top_height_px : ℤ)
      = (WIN_HEIGHT : ℤ) - ((total_pipe_body_pieces + 2) * PipePair.PIECE_HEIGHT : ℤ)
    ∧ (WIN_HEIGHT : ℤ) - ((total_pipe_body_pieces + 2) * PipePair.PIECE_HEIGHT : ℤ) = 128 := by
  have ht : total_pipe_body_pieces = 10 := by
    norm_num [total_pipe_body_pieces, WIN_HEIGHT, Bird.HEIGHT, PipePair.PIECE_HEIGHT]
  rw [ht] at h2
  constructor
  · simp only [PipePair.init, PipePair.top_height_px, PipePair.bottom_height_px, ht,
      PipePair.PIECE_HEIGHT, WIN_HEIGHT]
    push_cast
    omega
  · simp only [ht, PipePair.PIECE_HEIGHT, WIN_HEIGHT]
    norm_num

/-- Claim C9 witness: the gap constant at the concrete draw 5. -/
theorem pipe_gap_constant_witness :
    ((WIN_HEIGHT : ℤ) - ((PipePair.init (K := ℚ) 5).bottom_height_px : ℤ))
        - ((PipePair.init (K := ℚ) 5).top_height_px : ℤ)
      = (WIN_HEIGHT : ℤ) - ((total_pipe_body_pieces + 2) * PipePair.PIECE_HEIGHT : ℤ) :=
  (pipe_gap_constant 5 (by norm_num)
    (by norm_num [total_pipe_body_pieces, WIN_HEIGHT, Bird.HEIGHT, PipePair.PIECE_HEIGHT])).1

/-- Claim C5: advancing the bird by `elapsedMs` with a positive climb timer
moves `y` by `-CLIMB_SPEED * elapsedMs * (1 - cos((1 - t/CLIMB_DURATION) * pi))`
and decrements the timer by `elapsedMs`; with the timer at or below zero it
moves `y` by `+SINK_SPEED * elapsedMs` and leaves the timer unchanged. -/
theorem bird_advance_formula (b : Bird ℝ) (e : ℝ) :
    (0 < b.msec_to_climb →
      Bird.advance (fun q => Real.cos (q * Real.pi)) e b
        = { x := b.x
            y := b.y - Bird.CLIMB_SPEED * e *
              (1 - Real.cos ((1 - b.msec_to_climb / Bird.CLIMB_DURATION) * Real.pi))
            msec_to_climb := b.msec_to_climb - e })
    ∧ (b.msec_to_climb ≤ 0 →
      Bird.advance (fun q => Real.cos (q * Real.pi)) e b
        = { x := b.x, y := b.y + Bird.SINK_SPEED * e, msec_to_climb := b.msec_to_climb }) := by
  constructor
  · intro h
    simp [Bird.advance, Bird.update, if_pos h, frames_to_msec_msec_to_frames]
  · intro h
    simp [Bird.advance, Bird.update, if_neg (not_lt.mpr h), frames_to_msec_msec_to_frames]

/-- Claim C5 witness: the climb branch evaluated at a bird with 2 ms of climb
left, advanced by 5 ms. -/
theorem bird_advance_formula_witness :
    Bird.advance (fun q => Real.cos (q * Real.pi)) 5
        ({ x := 50, y := 240, msec_to_climb := 2 } : Bird ℝ)
      = { x := 50
          y := 240 - Bird.CLIMB_SPEED * 5 *
            (1 - Real.cos ((1 - 2 / Bird.CLIMB_DURATION) * Real.pi))
          msec_to_climb := 2 - 5 } :=
  (bird_advance_formula { x := 50, y := 240, msec_to_climb := 2 } 5).1 (by norm_num)

/-- Claim C8: with no climb active (timer at or below zero) two successive
advances by `t1` and `t2` land the bird at the same `y` as one advance by
`t1 + t2` — exactly, in the idealised arithmetic of the model. -/
theorem sink_advance_additive {K : Type} [LinearOrderedField K] (cosf : K → K)
    (b : Bird K) (t1 t2 : K) (h1 : 0 ≤ t1) (h2 : 0 ≤ t2) (h : b.msec_to_climb ≤ 0) :
    (Bird.advance cosf t2 (Bird.advance cosf t1 b)).y
      = (Bird.advance cosf (t1 + t2) b).y := by
  have hn := not_lt.mpr h
  simp [Bird.advance, Bird.update, hn, frames_to_msec_msec_to_frames]
  ring

/-- Claim C8 witness: sinking 2 ms then 3 ms equals sinking 5 ms. -/
theorem sink_advance_additive_witness :
    (Bird.advance cos0 3 (Bird.advance cos0 2 ({ x := 50, y := 240, msec_to_climb := 0 } : Bird ℚ))).y
      = (Bird.advance cos0 (2 + 3) ({ x := 50, y := 240, msec_to_climb := 0 } : Bird ℚ)).y :=
  sink_advance_additive cos0 { x := 50, y := 240, msec_to_climb := 0 } 2 3
    (by norm_num) (by norm_num) (by norm_num)

/-- Claim C6: one scoring pass raises the score by exactly the number of
pipes whose right edge `x + WIDTH` has passed the bird's x and whose flag is
unset (so exactly one per such pipe), sets those flags, and a repeated pass
on the resulting stream and score changes nothing (exactly-once total). -/
theorem updateScoring_exactly_once {K : Type} [LinearOrderedField K] (bx : K)
    (l : List (PipePair K)) (sc : ℕ) :
    (updateScoring bx l sc).2
        = sc + l.countP (fun p => decide (p.x + (PipePair.WIDTH : K) < bx ∧ p.score_counted = false))
    ∧ (∀ p ∈ l, p.x + (PipePair.WIDTH : K) < bx → p.score_counted = false →
        markScore bx p ∈ (updateScoring bx l sc).1 ∧ (markScore bx p).score_counted = true)
    ∧ updateScoring bx (updateScoring bx l sc).1 (updateScoring bx l sc).2
        = updateScoring bx l sc := by
  have hmap : ∀ (m : List (PipePair K)),
      (m.map (markScore bx)).map (markScore bx) = m.map (markScore bx) := by
    intro m
    induction m with
    | nil => simp
    | cons p rest ih => simp [ih, markScore_idem]
  have hcnt : ∀ (m : List (PipePair K)),
      ((m.map (markScore bx)).countP
        fun p => decide (p.x + (PipePair.WIDTH : K) < bx ∧ p.score_counted = false)) = 0 := by
    intro m
    rw [List.countP_eq_zero]
    intro a ha
    obtain ⟨q, hq, rfl⟩ := List.mem_map.mp ha
    simp [markScore_not_counted_again bx q]
  refine ⟨?_, ?_, ?_⟩
  · rw [updateScoring_spec]
  · intro p hp hx hflag
    constructor
    · rw [updateScoring_spec]
      exact List.mem_map_of_mem (markScore bx) hp
    · simp [markScore, hx, hflag]
  · rw [updateScoring_spec, updateScoring_spec, hmap, hcnt]
    simp

/-- Claim C6 witness: one qualifying pipe at x = 0 against bird x = 100 is
scored once; a second pass leaves stream and score untouched. -/
theorem updateScoring_exactly_once_witness :
    (updateScoring (100 : ℚ) [unscoredPipe] 0).2 = 0 + 1
    ∧ markScore (100 : ℚ) unscoredPipe ∈ (updateScoring (100 : ℚ) [unscoredPipe] 0).1
    ∧ updateScoring (100 : ℚ) (updateScoring (100 : ℚ) [unscoredPipe] 0).1
        (updateScoring (100 : ℚ) [unscoredPipe] 0).2
      = updateScoring (100 : ℚ) [unscoredPipe] 0 := by
  have h := updateScoring_exactly_once (100 : ℚ) [unscoredPipe] 0
  refine ⟨?_, ?_, h.2.2⟩
  · rw [h.1]
    norm_num [unscoredPipe, PipePair.WIDTH, List.countP_cons]
  · exact (h.2.1 unscoredPipe (by simp)
      (by norm_num [unscoredPipe, PipePair.WIDTH]) (by simp [unscoredPipe])).1

/-- Claim C7 counterexample: the two-pipe stream `[cexPipeA, cexPipeB]` is
ordered by descending x (100, then -200) as the claim stipulates, yet after
pruning the second pipe — which no longer intersects `[0, WIN_WIDTH)` —
remains in the stream, so the remaining obstacles are not exactly the
visible ones. -/
theorem prune_descending_not_exact :
    [cexPipeA, cexPipeB].Pairwise (fun a b => b.x ≤ a.x)
    ∧ cexPipeB ∈ pruneExpired [cexPipeA, cexPipeB]
    ∧ cexPipeB.visible = false := by
  refine ⟨?_, ?_, ?_⟩
  · norm_num [List.pairwise_cons, cexPipeA, cexPipeB]
  · norm_num [pruneExpired, List.dropWhile_cons, PipePair.visible, cexPipeA, cexPipeB,
      PipePair.WIDTH, WIN_WIDTH]
  · norm_num [PipePair.visible, cexPipeB, PipePair.WIDTH, WIN_WIDTH]

/-- Membership characterisation of pruning on an ascending-x stream whose
pipes all lie left of the window's right edge. -/
theorem prune_mem_aux {K : Type} [LinearOrderedField K] :
    ∀ (l : List (PipePair K)), l.Pairwise (fun a b => a.x ≤ b.x) →
      (∀ q ∈ l, q.x < (WIN_WIDTH : K)) → ∀ p : PipePair K,
      (p ∈ pruneExpired l ↔
        p ∈ l ∧ (-(PipePair.WIDTH : K) < p.x ∧ p.x < (WIN_WIDTH : K))) := by
  intro l
  induction l with
  | nil =>
    intro _ _ p
    simp [pruneExpired]
  | cons a t ih =>
    intro hsort hright p
    rw [List.pairwise_cons] at hsort
    obtain ⟨hle, hsort2⟩ := hsort
    have htright : ∀ q ∈ t, q.x < (WIN_WIDTH : K) :=
      fun q hq => hright q (List.mem_cons_of_mem _ hq)
    by_cases hv : a.visible = true
    · have hkeep : pruneExpired (a :: t) = a :: t := by
        simp [pruneExpired, List.dropWhile_cons, hv]
      rw [hkeep]
      constructor
      · intro hp
        refine ⟨hp, ?_⟩
        rcases List.mem_cons.mp hp with rfl | hpt
        · exact (visible_eq_true_iff _).mp hv
        · have hax : a.x ≤ p.x := hle p hpt
          have hconj := (visible_eq_true_iff a).mp hv
          exact ⟨lt_of_lt_of_le hconj.1 hax, htright p hpt⟩
      · exact fun hc => hc.1
    · have hv2 : a.visible = false := by simpa using hv
      have hdrop : pruneExpired (a :: t) = pruneExpired t := by
        simp [pruneExpired, List.dropWhile_cons, hv2]
      rw [hdrop, ih hsort2 htright p]
      constructor
      · exact fun hc => ⟨List.mem_cons_of_mem _ hc.1, hc.2⟩
      · intro hc
        rcases List.mem_cons.mp hc.1 with rfl | hpt
        · exact absurd ((visible_eq_true_iff p).mpr hc.2) (by simp [hv2])
        · exact ⟨hpt, hc.2⟩

/-- Claim C7 amended: under the order the loop actually maintains — ascending
x from the head (the head is the oldest, leftmost obstacle) — and with every
pipe strictly left of the window's right edge, pruning keeps exactly the
pipes whose extent still intersects `[0, WIN_WIDTH)`, and it only ever
removes a prefix at the head of the stream. -/
theorem pruneExpired_exact_on_sorted {K : Type} [LinearOrderedField K]
    (l : List (PipePair K)) (hsorted : l.Pairwise fun a b => a.x ≤ b.x)
    (hright : ∀ q ∈ l, q.x < (WIN_WIDTH : K)) :
    (∀ p : PipePair K, p ∈ pruneExpired l ↔
        p ∈ l ∧ (-(PipePair.WIDTH : K) < p.x ∧ p.x < (WIN_WIDTH : K)))
    ∧ l.takeWhile (fun p => ! p.visible) ++ pruneExpired l = l := by
  refine ⟨prune_mem_aux l hsorted hright, ?_⟩
  simp [pruneExpired]

/-- Claim C7 amended witness: on the ascending stream `[ascPipeA, ascPipeB]`
(x = -100 then x = 5) the prune keeps exactly the visible pipe. -/
theorem pruneExpired_exact_on_sorted_witness :
    ascPipeB ∈ pruneExpired [ascPipeA, ascPipeB]
    ∧ ascPipeA ∉ pruneExpired [ascPipeA, ascPipeB] := by
  have h := pruneExpired_exact_on_sorted [ascPipeA, ascPipeB]
    (by norm_num [List.pairwise_cons, ascPipeA, ascPipeB])
    (by
      intro q hq
      rcases List.mem_cons.mp hq with rfl | hq2
      · norm_num [ascPipeA, WIN_WIDTH]
      · rw [List.mem_singleton.mp hq2]
        norm_num [ascPipeB, WIN_WIDTH])
  constructor
  · exact (h.1 ascPipeB).mpr ⟨by simp, by norm_num [ascPipeB, PipePair.WIDTH],
      by norm_num [ascPipeB, WIN_WIDTH]⟩
  · intro hmem
    have h2 := ((h.1 ascPipeA).mp hmem).2.1
    norm_num [ascPipeA, PipePair.WIDTH] at h2

/-- Claim C1 counterexample: a quit event enters the terminal state during
this tick (`done` becomes true), yet in the very same tick the bird still
sinks from y = 300 to 303, the on-screen pipe still scrolls from x = 100 to
97, and the frame counter still increments from 1 to 2 — the simulation
state does not retain the values it had when Over was entered. -/
theorem over_tick_still_mutates :
    (tick cos0 noCollide 1 [Event.quit] preOverState).done = true
    ∧ (tick cos0 noCollide 1 [Event.quit] preOverState).bird.y = 303
    ∧ preOverState.bird.y = 300
    ∧ (tick cos0 noCollide 1 [Event.quit] preOverState).pipes
        = [{ x := 97, top_pieces := 6, bottom_pieces := 6, score_counted := false }]
    ∧ (tick cos0 noCollide 1 [Event.quit] preOverState).frame_clock = 2
    ∧ preOverState.frame_clock = 1 := by
  refine ⟨?_, ?_, ?_, ?_, ?_, ?_⟩ <;>
    norm_num [tick, spawnStep, processEvents, hitCheck, pruneExpired, updateScoring,
      PipePair.update, PipePair.visible, Bird.update, Bird.SINK_SPEED, ANIMATION_SPEED,
      frames_to_msec, FPS, WIN_WIDTH, WIN_HEIGHT, Bird.HEIGHT, PipePair.WIDTH,
      ADD_INTERVAL_FRAMES, preOverState, cos0, noCollide]

/-- Claim C1 amended: once `done` holds, `while not done` performs no further
iteration at all — `run` returns the state unchanged, so the score the loop
reports is the score at the end of the tick in which Over was entered (that
final tick itself, however, still runs to completion; see the
counterexample). -/
theorem run_stops_after_over {K : Type} [LinearOrderedField K] (cosf : K → K)
    (c : PipePair K → Bird K → Bool) (inputs : List (ℕ × List Event))
    (s : GameState K) (h : s.done = true) :
    run cosf c inputs s = s := by
  cases inputs with
  | nil => rfl
  | cons pr rest =>
    obtain ⟨d, evs⟩ := pr
    simp [run, h]

/-- Claim C1 amended witness: from a state already marked done, a scheduled
tick leaves the state (and hence the reported score) untouched. -/
theorem run_stops_after_over_witness :
    run cos0 noCollide [(1, [])] overState = overState :=
  run_stops_after_over cos0 noCollide [(1, [])] overState rfl

/-- Claim C2 counterexample: pause the initial state (whose climb timer is
2), then issue one Climb event while paused: the pause flag stays set, the
bird's climb timer jumps from 2 to 333.3 — `climbTimeRemainingMs` is not
left unchanged by Climb events issued during the pause. -/
theorem pause_climb_changes_timer :
    (run cos0 noCollide [(1, [Event.togglePause])] initialState).paused = true
    ∧ (run cos0 noCollide [(1, [Event.togglePause])] initialState).bird.msec_to_climb = 2
    ∧ (run cos0 noCollide [(1, [Event.togglePause]), (1, [Event.climb])]
        initialState).paused = true
    ∧ (run cos0 noCollide [(1, [Event.togglePause]), (1, [Event.climb])]
        initialState).bird.msec_to_climb = 3333 / 10
    ∧ (3333 / 10 : ℚ) ≠ 2 := by
  refine ⟨?_, ?_, ?_, ?_, ?_⟩ <;>
    norm_num [run, tick, spawnStep, processEvents, hitCheck, pruneExpired, updateScoring,
      PipePair.update, PipePair.visible, PipePair.init, total_pipe_body_pieces, Bird.update,
      Bird.SINK_SPEED, Bird.CLIMB_DURATION, ANIMATION_SPEED, frames_to_msec, FPS, WIN_WIDTH,
      WIN_HEIGHT, Bird.HEIGHT, PipePair.WIDTH, PipePair.PIECE_HEIGHT, ADD_INTERVAL_FRAMES,
      initialState, cos0, noCollide]

/-- Claim C2 amended: while paused, any number of ticks whose events are all
Climb leave the bird's x and y, the pipe stream, the score, the frame
counter and the pause flag unchanged; only the climb timer may change (each
Climb event overwrites it with `CLIMB_DURATION`). -/
theorem pause_freeze {K : Type} [LinearOrderedField K] (cosf : K → K)
    (c : PipePair K → Bird K → Bool) :
    ∀ (inputs : List (ℕ × List Event)) (s : GameState K), s.paused = true →
      (∀ pr ∈ inputs, ∀ e ∈ pr.2, e = Event.climb) →
      (run cosf c inputs s).bird.x = s.bird.x
      ∧ (run cosf c inputs s).bird.y = s.bird.y
      ∧ (run cosf c inputs s).pipes = s.pipes
      ∧ (run cosf c inputs s).score = s.score
      ∧ (run cosf c inputs s).frame_clock = s.frame_clock
      ∧ (run cosf c inputs s).paused = true := by
  intro inputs
  induction inputs with
  | nil =>
    intro s hp _
    simp [run, hp]
  | cons pr rest ih =>
    obtain ⟨d, evs⟩ := pr
    intro s hp hev
    by_cases hd : s.done = true
    · simp [run, hd, hp]
    · have hdf : s.done = false := by simpa using hd
      have hevs : ∀ e ∈ evs, e = Event.climb :=
        fun e he => hev (d, evs) (List.mem_cons_self _ _) e he
      have hrest : ∀ pr2 ∈ rest, ∀ e ∈ pr2.2, e = Event.climb :=
        fun pr2 hpr2 => hev pr2 (List.mem_cons_of_mem _ hpr2)
      obtain ⟨⟨hx, hy⟩, hdn, hps⟩ :=
        processEvents_climb_only (K := K) evs hevs s.bird s.done s.paused
      rw [hp] at hx hy hdn hps
      have t1 : (tick cosf c d evs s).paused = true := by simp [tick, hps, hp]
      have t2 : (tick cosf c d evs s).pipes = s.pipes := by
        simp [tick, hps, hp, spawnStep]
      have t3 : (tick cosf c d evs s).score = s.score := by simp [tick, hps, hp]
      have t4 : (tick cosf c d evs s).frame_clock = s.frame_clock := by
        simp [tick, hps, hp]
      have t5 : (tick cosf c d evs s).bird.x = s.bird.x := by simp [tick, hps, hp, hx]
      have t6 : (tick cosf c d evs s).bird.y = s.bird.y := by simp [tick, hps, hp, hy]
      obtain ⟨r1, r2, r3, r4, r5, r6⟩ := ih (tick cosf c d evs s) t1 hrest
      refine ⟨?_, ?_, ?_, ?_, ?_, ?_⟩ <;>
        simp [run, hdf, r1, r2, r3, r4, r5, r6, t1, t2, t3, t4, t5, t6]

/-- Claim C2 amended witness: one Climb-only tick on a paused state leaves
position, stream, score and frame counter unchanged. -/
theorem pause_freeze_witness :
    (run cos0 noCollide [(1, [Event.climb])] pausedState).bird.y = pausedState.bird.y
    ∧ (run cos0 noCollide [(1, [Event.climb])] pausedState).pipes = pausedState.pipes
    ∧ (run cos0 noCollide [(1, [Event.climb])] pausedState).score = pausedState.score
    ∧ (run cos0 noCollide [(1, [Event.climb])] pausedState).frame_clock
        = pausedState.frame_clock := by
  have h := pause_freeze cos0 noCollide [(1, [Event.climb])] pausedState rfl (by decide)
  exact ⟨h.2.1, h.2.2.1, h.2.2.2.1, h.2.2.2.2.1⟩

/-- Claim C3 counterexample: with the sinking bird at y = 478 (in bounds) the
tick advances it to y = 481, which is at or beyond the kill line
`WIN_HEIGHT - Bird.HEIGHT = 480`; had the out-of-bounds test been evaluated
on the post-advance position, the tick would have entered Over, but `done`
stays false because the test ran on the pre-advance y. -/
theorem collision_checked_before_advance_cex :
    (tick cos0 noCollide 1 [] nearFloorState).bird.y = 481
    ∧ ((481 : ℚ) ≥ (WIN_HEIGHT : ℚ) - (Bird.HEIGHT : ℚ))
    ∧ (tick cos0 noCollide 1 [] nearFloorState).done = false := by
  refine ⟨?_, ?_, ?_⟩ <;>
    norm_num [tick, spawnStep, processEvents, hitCheck, pruneExpired, updateScoring,
      PipePair.update, PipePair.visible, Bird.update, Bird.SINK_SPEED, ANIMATION_SPEED,
      frames_to_msec, FPS, WIN_WIDTH, WIN_HEIGHT, Bird.HEIGHT, PipePair.WIDTH,
      ADD_INTERVAL_FRAMES, nearFloorState, cos0, noCollide]

/-- Claim C3 amended: in a non-paused tick the collision and out-of-bounds
test is evaluated on the pre-advance positions — `done` is exactly the
post-event done flag or `hitCheck` applied to the post-spawn, pre-move pipes
and the post-event, pre-move bird — and only afterwards are the pipes and
the bird advanced by the tick's elapsed time. -/
theorem tick_collision_uses_pre_advance {K : Type} [LinearOrderedField K]
    (cosf : K → K) (c : PipePair K → Bird K → Bool) (d : ℕ) (evs : List Event)
    (s : GameState K) (b1 : Bird K) (d1 : Bool)
    (h : processEvents evs s.bird s.done s.paused = (b1, d1, false)) :
    (tick cosf c d evs s).done = (d1 || hitCheck c (spawnStep d s) b1)
    ∧ (tick cosf c d evs s).bird = Bird.update cosf 1 b1
    ∧ (tick cosf c d evs s).pipes
        = (updateScoring (Bird.update cosf 1 b1).x
            ((pruneExpired (spawnStep d s)).map (fun p => PipePair.update p 1)) s.score).1 := by
  refine ⟨?_, ?_, ?_⟩ <;> simp [tick, h]

/-- Claim C3 amended witness: the characterisation applied to the concrete
near-floor state with an empty event queue. -/
theorem tick_collision_uses_pre_advance_witness :
    (tick cos0 noCollide 1 [] nearFloorState).done
      = (false || hitCheck noCollide (spawnStep 1 nearFloorState) nearFloorState.bird)
    ∧ (tick cos0 noCollide 1 [] nearFloorState).bird
      = Bird.update cos0 1 nearFloorState.bird := by
  have h := tick_collision_uses_pre_advance cos0 noCollide 1 [] nearFloorState
    nearFloorState.bird false rfl
  exact ⟨h.1, h.2.1⟩

/-- Claim C10: the score never decreases across any tick of the loop, and
the per-obstacle mutations a surviving pipe undergoes within a tick (the
scroll `PipePair.update` followed by the scoring `markScore`) never clear an
already-set `score_counted` flag. -/
theorem score_monotone_flag_stable {K : Type} [LinearOrderedField K] :
    (∀ (cosf : K → K) (c : PipePair K → Bird K → Bool) (d : ℕ)
        (evs : List Event) (s : GameState K),
      s.score ≤ (tick cosf c d evs s).score)
    ∧ (∀ (bx : K) (p : PipePair K), p.score_counted = true →
        (markScore bx (PipePair.update p 1)).score_counted = true) := by
  constructor
  · intro cosf c d evs s
    by_cases hp : (processEvents evs s.bird s.done s.paused).2.2 = true
    · simp [tick, hp]
    · have hp2 : (processEvents evs s.bird s.done s.paused).2.2 = false := by simpa using hp
      simp [tick, hp2, updateScoring_spec]
  · intro bx p hflag
    simp [markScore, PipePair.update, hflag]

/-- Claim C10 witness: score monotonicity on a concrete paused tick, and
flag stability on a concrete already-scored pipe. -/
theorem score_monotone_flag_stable_witness :
    pausedState.score ≤ (tick cos0 noCollide 1 [] pausedState).score
    ∧ (markScore (100 : ℚ) (PipePair.update scoredPipe 1)).score_counted = true :=
  ⟨(score_monotone_flag_stable (K := ℚ)).1 cos0 noCollide 1 [] pausedState,
   (score_monotone_flag_stable (K := ℚ)).2 100 scoredPipe rfl⟩
